import Mathlib

/-!
Shallow embedding of the `gfp_core` crate (generic field projection), covering
`src/core/src/descriptor.rs` and `src/core/src/lib.rs`.

A raw (possibly fat) pointer is modelled as its address word together with its
metadata component.  The `Pointer` union in `descriptor.rs` reinterprets a fat
pointer so that the `ptr` / `ptr_mut` / `int` views read and write exactly the
leading address word while leaving the metadata bytes untouched; the structure
`Pointer` below is that model: the field `int` is the address word, the field
`meta` is the metadata component (slice length, dispatch-table address, or
nothing), and the phantom parameter records the pointee type.  Machine-word
arithmetic on the address word is modelled on `Nat` with explicit reduction
modulo `2 ^ 64` wherever the source wraps.
-/

namespace Gfp

/-- Number of values of `usize` on a 64-bit target. -/
def usizeSize : Nat := 2 ^ 64

/-- Model of the `Pointer` union (`descriptor.rs` lines 18-26): a raw handle is
an address word `int` plus a metadata component `meta` of type `μ`; the phantom
parameter `T` is the pointee type (`fat_ptr` / `fat_ptr_out` views). -/
structure Pointer (T : Type) (μ : Type) where
  int : Nat
  meta : μ
deriving DecidableEq

/-- `FieldDescriptor<Parent, Type>` (`descriptor.rs` lines 3-8): a byte offset
plus phantom typing. -/
structure FieldDescriptor (Parent Ty : Type) where
  offset : Nat
deriving DecidableEq

/-- `impl Clone for FieldDescriptor` (`descriptor.rs` lines 14-16):
`fn clone(&self) -> Self { *self }`. -/
def FieldDescriptor.clone (self : FieldDescriptor Parent Ty) :
    FieldDescriptor Parent Ty :=
  self

/-- `FieldDescriptor::from_offset` (`descriptor.rs` lines 29-31). -/
def FieldDescriptor.from_offset (offset : Nat) : FieldDescriptor Parent Ty :=
  ⟨offset⟩

/-- `FieldDescriptor::from_pointers` (`descriptor.rs` lines 41-46): reads the
address words of the two handles through the union (stripping metadata) and
forms `field.int - parent.int`.  The `usize` subtraction is modelled as
wrapping machine-word subtraction: `(f + 2^64 - p) % 2^64` for words
`p, f < 2^64`. -/
def FieldDescriptor.from_pointers (parent : Pointer Parent μ)
    (field : Pointer Ty ν) : FieldDescriptor Parent Ty :=
  FieldDescriptor.from_offset ((field.int + usizeSize - parent.int) % usizeSize)

/-- `FieldDescriptor::project_raw_unchecked` (`descriptor.rs` lines 56-63):
`pointer.ptr = pointer.ptr.add(self.offset)` — non-wrapping byte addition on
the address word (the caller asserts no overflow, so the defined behaviour is
the exact sum), metadata bytes untouched. -/
def FieldDescriptor.project_raw_unchecked (self : FieldDescriptor Parent Ty)
    (parent : Pointer Parent μ) : Pointer Ty μ :=
  ⟨parent.int + self.offset, parent.meta⟩

/-- `FieldDescriptor::project_raw_mut_unchecked` (`descriptor.rs` lines
73-80): same arithmetic through the `ptr_mut` view. -/
def FieldDescriptor.project_raw_mut_unchecked (self : FieldDescriptor Parent Ty)
    (parent : Pointer Parent μ) : Pointer Ty μ :=
  ⟨parent.int + self.offset, parent.meta⟩

/-- `FieldDescriptor::project_raw` (`descriptor.rs` lines 90-99):
`pointer.ptr = pointer.ptr.wrapping_add(self.offset)` — wrapping byte addition
on the address word, metadata bytes untouched. -/
def FieldDescriptor.project_raw (self : FieldDescriptor Parent Ty)
    (parent : Pointer Parent μ) : Pointer Ty μ :=
  ⟨(parent.int + self.offset) % usizeSize, parent.meta⟩

/-- `FieldDescriptor::project_raw_mut` (`descriptor.rs` lines 109-118): same
wrapping arithmetic through the `ptr_mut` view. -/
def FieldDescriptor.project_raw_mut (self : FieldDescriptor Parent Ty)
    (parent : Pointer Parent μ) : Pointer Ty μ :=
  ⟨(parent.int + self.offset) % usizeSize, parent.meta⟩

/-- The `Field` trait (`lib.rs` lines 177-211) as a record of capabilities:
associated types `Parent`, `Type` become parameters, the `Name` iterator is a
finite list of string segments, and the two raw projectors map parent handles
to field handles over a common metadata type `μ`. -/
structure Field (Parent Ty : Type) (μ : Type) where
  name : List String
  project_raw : Pointer Parent μ → Pointer Ty μ
  project_raw_mut : Pointer Parent μ → Pointer Ty μ

/-- Modelled from the spec: the `Chain` combinator is defined in `chain.rs`,
which is not among the sources (only its re-export and the `Field::chain`
method are).  Per §4.3 of the spec: the name path is the concatenation
`outer.name() ++ inner.name()`, and
`project_raw(p) = inner.project_raw(outer.project_raw(p))`, likewise for the
mutable projector. -/
def Chain.new (outer : Field A B μ) (inner : Field B C μ) : Field A C μ :=
  ⟨outer.name ++ inner.name,
   fun p => inner.project_raw (outer.project_raw p),
   fun p => inner.project_raw_mut (outer.project_raw_mut p)⟩

/-- `Field::chain` (`lib.rs` lines 207-211): `Chain::new(self, f)`, requiring
`F::Parent = Self::Type` (enforced here by the type of `f`). -/
def Field.chain (self : Field A B μ) (f : Field B C μ) : Field A C μ :=
  Chain.new self f

/-- `impl Field for &F` (`lib.rs` lines 213-232): a shared reference to a
field capability is itself a field capability with the same associated types,
forwarding `name`, `project_raw` and `project_raw_mut` to `F`. -/
def Field.refShared (f : Field Parent Ty μ) : Field Parent Ty μ :=
  ⟨f.name, fun ptr => f.project_raw ptr, fun ptr => f.project_raw_mut ptr⟩

/-- `impl Field for &mut F` (`lib.rs` lines 234-253): an exclusive reference
to a field capability forwards identically. -/
def Field.refMut (f : Field Parent Ty μ) : Field Parent Ty μ :=
  ⟨f.name, fun ptr => f.project_raw ptr, fun ptr => f.project_raw_mut ptr⟩

theorem usizeSize_pos : 0 < usizeSize := by
  simp [usizeSize]

/-- Wrapping machine-word subtraction recovers the exact difference when the
minuend word is at least the subtrahend. -/
theorem wrap_sub_eq_sub (p f : Nat) (hpf : p ≤ f) (hf : f < usizeSize) :
    (f + usizeSize - p) % usizeSize = f - p := by
  have h1 : f + usizeSize - p = (f - p) + usizeSize := by omega
  rw [h1, Nat.add_mod_right, Nat.mod_eq_of_lt (by omega)]

/-- C1: for every offset descriptor `d` and parent handle `p`, both checked
projectors `project_raw` and `project_raw_mut` return the handle (typed at the
field type `Ty`) whose address word is `p`'s address word plus `d.offset`
bytes with wrapping arithmetic, carrying `p`'s metadata. -/
theorem checked_projectors_add_offset_wrapping
    (d : FieldDescriptor Parent Ty) (p : Pointer Parent μ) :
    d.project_raw p = (⟨(p.int + d.offset) % usizeSize, p.meta⟩ : Pointer Ty μ)
      ∧ d.project_raw_mut p
        = (⟨(p.int + d.offset) % usizeSize, p.meta⟩ : Pointer Ty μ) :=
  ⟨rfl, rfl⟩

/-- C2: all four projectors preserve the metadata component of the parent
handle verbatim; only the address word is modified. -/
theorem projectors_preserve_metadata
    (d : FieldDescriptor Parent Ty) (p : Pointer Parent μ) :
    (d.project_raw p).meta = p.meta
      ∧ (d.project_raw_mut p).meta = p.meta
      ∧ (d.project_raw_unchecked p).meta = p.meta
      ∧ (d.project_raw_mut_unchecked p).meta = p.meta :=
  ⟨rfl, rfl, rfl, rfl⟩

/-- C3: for compatible field capabilities `a : A → B` and `b : B → C` and any
parent pointer `p`, the chained capability projects by composition:
`chain(a,b).project_raw(p) = b.project_raw(a.project_raw(p))`, and likewise
for the mutable projector. -/
theorem chain_projects_by_composition
    (a : Field A B μ) (b : Field B C μ) (p : Pointer A μ) :
    (a.chain b).project_raw p = b.project_raw (a.project_raw p)
      ∧ (a.chain b).project_raw_mut p = b.project_raw_mut (a.project_raw_mut p) :=
  ⟨rfl, rfl⟩

/-- C4: chaining is associative observationally: both groupings project any
parent pointer to the same field handle (checked and mutable projectors), and
their name sequences agree element-wise. -/
theorem chain_assoc_observational
    (a : Field A B μ) (b : Field B C μ) (c : Field C D μ) (p : Pointer A μ) :
    ((a.chain b).chain c).project_raw p = (a.chain (b.chain c)).project_raw p
      ∧ ((a.chain b).chain c).project_raw_mut p
        = (a.chain (b.chain c)).project_raw_mut p
      ∧ ((a.chain b).chain c).name = (a.chain (b.chain c)).name :=
  ⟨rfl, rfl, List.append_assoc a.name b.name c.name⟩

/-- C5: when both raw handles lie in the same allocation — modelled as the
field's address word being at least the parent's (so the field sits inside the
parent's allocation) and in range of the address space — the descriptor built
by `from_pointers` carries exactly the address difference, computed from the
address words after stripping metadata. -/
theorem from_pointers_offset_is_address_difference
    (parent : Pointer Parent μ) (field : Pointer Ty ν)
    (hle : parent.int ≤ field.int) (hlt : field.int < usizeSize) :
    (FieldDescriptor.from_pointers parent field).offset
      = field.int - parent.int :=
  wrap_sub_eq_sub parent.int field.int hle hlt

/-- C5 witness: concrete handles at addresses 100 and 108 give offset 8. -/
theorem from_pointers_offset_is_address_difference_witness :
    (⟨100, ()⟩ : Pointer Unit Unit).int ≤ (⟨108, ()⟩ : Pointer Unit Unit).int
      ∧ (⟨108, ()⟩ : Pointer Unit Unit).int < usizeSize
      ∧ (FieldDescriptor.from_pointers (⟨100, ()⟩ : Pointer Unit Unit)
          (⟨108, ()⟩ : Pointer Unit Unit)).offset = 108 - 100 :=
  ⟨by decide, by decide,
    from_pointers_offset_is_address_difference
      (⟨100, ()⟩ : Pointer Unit Unit) (⟨108, ()⟩ : Pointer Unit Unit)
      (by decide) (by decide)⟩

/-- C6: when adding the offset to the parent's address word does not overflow
the address space, the unchecked projectors agree with the checked ones. -/
theorem unchecked_agrees_with_checked_without_overflow
    (d : FieldDescriptor Parent Ty) (p : Pointer Parent μ)
    (h : p.int + d.offset < usizeSize) :
    d.project_raw_unchecked p = d.project_raw p
      ∧ d.project_raw_mut_unchecked p = d.project_raw_mut p := by
  constructor <;>
    simp [FieldDescriptor.project_raw_unchecked, FieldDescriptor.project_raw,
      FieldDescriptor.project_raw_mut_unchecked,
      FieldDescriptor.project_raw_mut, Nat.mod_eq_of_lt h]

/-- C6 witness: offset 8 at address 100 does not overflow, and both variants
agree there. -/
theorem unchecked_agrees_with_checked_without_overflow_witness :
    (⟨100, ()⟩ : Pointer Unit Unit).int
        + (FieldDescriptor.from_offset 8 : FieldDescriptor Unit Unit).offset
      < usizeSize
      ∧ ((FieldDescriptor.from_offset 8 : FieldDescriptor Unit Unit).project_raw_unchecked
            (⟨100, ()⟩ : Pointer Unit Unit)
          = (FieldDescriptor.from_offset 8 : FieldDescriptor Unit Unit).project_raw
            (⟨100, ()⟩ : Pointer Unit Unit)
        ∧ (FieldDescriptor.from_offset 8 : FieldDescriptor Unit Unit).project_raw_mut_unchecked
            (⟨100, ()⟩ : Pointer Unit Unit)
          = (FieldDescriptor.from_offset 8 : FieldDescriptor Unit Unit).project_raw_mut
            (⟨100, ()⟩ : Pointer Unit Unit)) :=
  ⟨by decide,
    unchecked_agrees_with_checked_without_overflow
      (FieldDescriptor.from_offset 8 : FieldDescriptor Unit Unit)
      (⟨100, ()⟩ : Pointer Unit Unit) (by decide)⟩

/-- C7: the checked projectors are total: for every descriptor and every
input handle — including addresses near the top of the address space — they
yield a well-defined handle whose address word lies inside the address space;
being plain functions, they never fail or panic. -/
theorem checked_projectors_total
    (d : FieldDescriptor Parent Ty) (p : Pointer Parent μ) :
    (d.project_raw p).int < usizeSize
      ∧ (d.project_raw_mut p).int < usizeSize :=
  ⟨Nat.mod_lt _ usizeSize_pos, Nat.mod_lt _ usizeSize_pos⟩

/-- C8: shared and exclusive references to a field capability are field
capabilities of the same `Parent`, `Type` and `Name` types (witnessed by the
types of `Field.refShared` and `Field.refMut`) with forwarding semantics:
projection and name agree with the referent. -/
theorem reference_field_forwards
    (f : Field Parent Ty μ) (p : Pointer Parent μ) :
    (Field.refShared f).project_raw p = f.project_raw p
      ∧ (Field.refShared f).project_raw_mut p = f.project_raw_mut p
      ∧ (Field.refShared f).name = f.name
      ∧ (Field.refMut f).project_raw p = f.project_raw p
      ∧ (Field.refMut f).project_raw_mut p = f.project_raw_mut p
      ∧ (Field.refMut f).name = f.name :=
  ⟨rfl, rfl, rfl, rfl, rfl, rfl⟩

/-- C9: an offset descriptor is a plain value: `clone` returns an identical
descriptor with the same offset, and two descriptors of the same `Parent` and
`Type` are equal exactly when their offsets are equal. -/
theorem descriptor_plain_value
    (d e : FieldDescriptor Parent Ty) :
    d.clone = d ∧ d.clone.offset = d.offset ∧ (d = e ↔ d.offset = e.offset) := by
  refine ⟨rfl, rfl, ?_⟩
  cases d
  cases e
  simp

/-- C10: round trip of construction and projection: for handles in the same
allocation with the field's address word not below the parent's and in range,
projecting the parent through `from_pointers(parent, field)` returns the
field's address word with the parent's metadata. -/
theorem from_pointers_project_raw_round_trip
    (parent : Pointer Parent μ) (field : Pointer Ty ν)
    (hle : parent.int ≤ field.int) (hlt : field.int < usizeSize) :
    (FieldDescriptor.from_pointers parent field).project_raw parent
      = (⟨field.int, parent.meta⟩ : Pointer Ty μ) := by
  have h := wrap_sub_eq_sub parent.int field.int hle hlt
  simp only [FieldDescriptor.project_raw, FieldDescriptor.from_pointers,
    FieldDescriptor.from_offset, h]
  rw [Nat.add_sub_cancel' hle, Nat.mod_eq_of_lt hlt]

/-- C10 witness: with parent at address 100 and field at address 108 the
round trip returns address 108 with the parent's metadata. -/
theorem from_pointers_project_raw_round_trip_witness :
    (⟨100, ()⟩ : Pointer Unit Unit).int ≤ (⟨108, ()⟩ : Pointer Unit Unit).int
      ∧ (⟨108, ()⟩ : Pointer Unit Unit).int < usizeSize
      ∧ (FieldDescriptor.from_pointers (⟨100, ()⟩ : Pointer Unit Unit)
            (⟨108, ()⟩ : Pointer Unit Unit)).project_raw
            (⟨100, ()⟩ : Pointer Unit Unit)
        = (⟨108, ()⟩ : Pointer Unit Unit) :=
  ⟨by decide, by decide,
    from_pointers_project_raw_round_trip
      (⟨100, ()⟩ : Pointer Unit Unit) (⟨108, ()⟩ : Pointer Unit Unit)
      (by decide) (by decide)⟩

end Gfp
